import Mathlib

/-!
Shallow embedding of the `calculator` tool from
`python/packages/autogen-studio/autogenstudio/gallery/tools/calculator.py`,
together with a model of the chat-completion client contract exercised by
`python/packages/autogen-ext/tests/models/test_ollama_reliability.py`.

Python machine floats are idealized as exact rationals (`ℚ`): every
arithmetic operation of the calculator is embedded as exact rational
arithmetic, and `str`/`round` on floats are embedded as exact decimal
rendering/rounding of the corresponding rational.
-/

/-- Python runtime values relevant to the calculator: ints (arbitrary
precision, as in Python), floats (idealized as exact rationals), strings,
and a representative non-numeric non-string object (`noneV`). -/
inductive Value : Type where
  | intV : Int → Value
  | floatV : ℚ → Value
  | strV : String → Value
  | noneV : Value
deriving DecidableEq

/-- Embeds `isinstance(x, (int, float))`. -/
def isNumeric : Value → Bool
  | .intV _ => true
  | .floatV _ => true
  | _ => false

/-- The numeric value of a Python number, as an exact rational. -/
def ratOf : Value → ℚ
  | .intV n => (n : ℚ)
  | .floatV q => q
  | _ => 0

/-- Python `a + b` on numbers: `int + int` is an int, any float operand
promotes the result to float. -/
def pyAdd : Value → Value → Value
  | .intV m, .intV n => .intV (m + n)
  | a, b => .floatV (ratOf a + ratOf b)

/-- Python `a - b` on numbers. -/
def pySub : Value → Value → Value
  | .intV m, .intV n => .intV (m - n)
  | a, b => .floatV (ratOf a - ratOf b)

/-- Python `a * b` on numbers. -/
def pyMul : Value → Value → Value
  | .intV m, .intV n => .intV (m * n)
  | a, b => .floatV (ratOf a * ratOf b)

/-- Python true division `a / b`: always a float. -/
def pyDiv (a b : Value) : Value := .floatV (ratOf a / ratOf b)

/-- Python `round` to an integer: nearest integer, ties to the even one. -/
def pyRoundInt (q : ℚ) : ℤ :=
  if q - ⌊q⌋ < 1 / 2 then ⌊q⌋
  else if q - ⌊q⌋ > 1 / 2 then ⌊q⌋ + 1
  else if ⌊q⌋ % 2 = 0 then ⌊q⌋ else ⌊q⌋ + 1

/-- Python `round(q, 10)` on the idealized float `q`. -/
def pyRound10 (q : ℚ) : ℚ := (pyRoundInt (q * 10 ^ 10) : ℚ) / 10 ^ 10

/-- Little-endian base-10 digits, with explicit fuel so that the kernel can
reduce it on literals. -/
def digitsRec : ℕ → ℕ → List ℕ
  | 0, _ => []
  | _ + 1, 0 => []
  | fuel + 1, n + 1 => ((n + 1) % 10) :: digitsRec fuel ((n + 1) / 10)

/-- Little-endian base-10 digits of `n` (empty for `0`). -/
def decDigits (n : ℕ) : List ℕ := digitsRec n n

/-- The character of a decimal digit. -/
def digitChar (d : ℕ) : Char := Char.ofNat (48 + d)

/-- Python `str(n)` for a natural number. -/
def natToString (n : ℕ) : String :=
  if n = 0 then "0" else String.mk ((decDigits n).reverse.map digitChar)

/-- Python `str(n)` for an int. -/
def intToString (n : ℤ) : String :=
  if n < 0 then "-" ++ natToString n.natAbs else natToString n.toNat

/-- The ten fractional digits of `fp / 10^10` (for `fp < 10^10`),
little-endian, padded with high-order zeros to length 10. -/
def fracDigitsLE (fp : ℕ) : List ℕ :=
  decDigits fp ++ List.replicate (10 - (decDigits fp).length) 0

/-- The fractional digits after stripping the trailing zeros of the printed
form (the low-order zero digits), still little-endian. -/
def strippedFrac (fp : ℕ) : List ℕ := (fracDigitsLE fp).dropWhile (fun d => d == 0)

/-- Python `str(x)` for a float `x = n / 10^10`, as produced by
`round(result, 10)`: sign, integer part, a dot, and the fractional digits
with trailing zeros stripped (at least one fractional digit is printed). -/
def floatLitString (n : ℤ) : String :=
  let m := n.natAbs
  let ip := m / 10 ^ 10
  let fr := strippedFrac (m % 10 ^ 10)
  (if n < 0 then "-" else "") ++ natToString ip ++ "." ++
    (if fr.isEmpty then "0" else String.mk (fr.reverse.map digitChar))

/-- Result formatting of `calculator.py` lines 44–47: an integral float is
printed as `str(int(result))`; otherwise `str(round(result, 10))` (for an
int `result`, `round(result, 10)` is the int itself). -/
def formatResult : Value → String
  | .intV n => intToString n
  | .floatV q =>
      if q.den = 1 then intToString q.num
      else floatLitString (pyRoundInt (q * 10 ^ 10))
  | _ => ""

/-- Python exceptions, as far as the calculator's handlers distinguish them. -/
inductive PyExn : Type where
  | typeErr : String → PyExn
  | valueErr : String → PyExn
  | otherErr : String → PyExn
deriving DecidableEq

/-- Error message for a non-numeric first operand. -/
def msgInvalidA : String := "오류: 첫 번째 숫자가 유효하지 않습니다"

/-- Error message for a non-numeric second operand. -/
def msgInvalidB : String := "오류: 두 번째 숫자가 유효하지 않습니다"

/-- Error message for a non-string operator. -/
def msgInvalidOpType : String := "오류: 연산자가 유효하지 않습니다"

/-- Error message for division by zero. -/
def msgDivZero : String := "오류: 0으로 나눌 수 없습니다"

/-- Error message for an unsupported operator string; the f-string embeds
the offending operator between single quotes. -/
def invalidOperatorMsg (op : String) : String :=
  "오류: 잘못된 연산자입니다. +, -, *, / 중 하나를 사용하세요. 입력값: \x27" ++ op ++ "\x27"

/-- The body of the `try:` block of `calculator` (lines 21–47): input
validation, operator dispatch, and result formatting. Every `return` is an
`Except.ok`; an uncaught Python exception would be an `Except.error`. -/
def calculatorBody (a b operator : Value) : Except PyExn String :=
  if isNumeric a = false then .ok msgInvalidA
  else if isNumeric b = false then .ok msgInvalidB
  else
    match operator with
    | .strV op =>
        if op = "+" then .ok (formatResult (pyAdd a b))
        else if op = "-" then .ok (formatResult (pySub a b))
        else if op = "*" then .ok (formatResult (pyMul a b))
        else if op = "/" then
          if ratOf b = 0 then .ok msgDivZero
          else .ok (formatResult (pyDiv a b))
        else .ok (invalidOperatorMsg op)
    | _ => .ok msgInvalidOpType

/-- The full `calculator` function: the `try:` body wrapped in the
`except TypeError / ValueError / Exception` handlers of lines 49–57, each
of which converts the exception to an error string. -/
def calculator (a b operator : Value) : String :=
  match calculatorBody a b operator with
  | .ok s => s
  | .error (.typeErr m) => "오류: 타입 오류 - " ++ m
  | .error (.valueErr m) => "오류: 값 오류 - " ++ m
  | .error (.otherErr m) => "오류: 예상치 못한 오류가 발생했습니다 - " ++ m

/-- Numeric value of a decimal digit character. -/
def digitVal (c : Char) : ℕ := c.toNat - 48

/-- Whether a character is a decimal digit. -/
def isDigitCh (c : Char) : Bool := 48 ≤ c.toNat && c.toNat ≤ 57

/-- Reads a nonempty all-digit character list as a natural number. -/
def parseNatList (cs : List Char) : Option ℕ :=
  if !cs.isEmpty && cs.all isDigitCh then
    some (cs.foldl (fun acc c => 10 * acc + digitVal c) 0)
  else none

/-- Reads an unsigned decimal literal, with an optional fractional part. -/
def parseRatCore (cs : List Char) : Option ℚ :=
  match cs.dropWhile (fun c => c != '.') with
  | [] => (parseNatList (cs.takeWhile (fun c => c != '.'))).map (fun n => (n : ℚ))
  | _ :: fp =>
      match parseNatList (cs.takeWhile (fun c => c != '.')), parseNatList fp with
      | some n, some f => some ((n : ℚ) + (f : ℚ) / (10 : ℚ) ^ fp.length)
      | _, _ => none

/-- Reads a decimal literal with an optional leading minus sign back into
an exact rational: the independent interpretation of the calculator's
output strings. -/
def parseRat (s : String) : Option ℚ :=
  match s.toList with
  | [] => none
  | c :: cs => if c = '-' then (parseRatCore cs).map (fun q => -q) else parseRatCore (c :: cs)

/-- The exact mathematical value of an arithmetic operation. -/
def evalOp (op : String) (x y : ℚ) : ℚ :=
  if op = "+" then x + y
  else if op = "-" then x - y
  else if op = "*" then x * y
  else if op = "/" then x / y
  else 0

/-- The Python value `result` computed on the success path for a supported
operator. -/
def resultVal (a b : Value) (op : String) : Value :=
  if op = "+" then pyAdd a b
  else if op = "-" then pySub a b
  else if op = "*" then pyMul a b
  else pyDiv a b

/-- Boolean list-prefix test. -/
def listIsPre : List Char → List Char → Bool
  | [], _ => true
  | _ :: _, [] => false
  | c :: cs, d :: ds => c == d && listIsPre cs ds

/-- Whether a calculator return value starts with the error marker `오류:`. -/
def hasErrPre (s : String) : Bool := listIsPre "오류:".toList s.toList

/-- An input triple on which the calculator reaches the success path:
numeric operands, a supported operator string, and a nonzero second
operand for division. -/
def successInput (a b operator : Value) : Prop :=
  isNumeric a = true ∧ isNumeric b = true ∧
    ∃ op : String, operator = .strV op ∧
      (op = "+" ∨ op = "-" ∨ op = "*" ∨ (op = "/" ∧ ratOf b ≠ 0))

/-- Token-usage counters, as reported by the client. -/
structure RequestUsage where
  prompt_tokens : ℕ
  completion_tokens : ℕ
deriving DecidableEq

/-- The tool-choice policy passed to `create`. -/
inductive ToolChoice : Type where
  | auto : ToolChoice
  | required : ToolChoice
  | noTool : ToolChoice
deriving DecidableEq

/-- Arguments of a `create` call, as far as the modelled contract reads
them. -/
structure CreateArgs where
  messages : List String
  tools : List String
  tool_choice : ToolChoice
deriving DecidableEq

/-- The result of a successful `create` call. -/
structure CreateResult where
  content : String
  usage : RequestUsage
deriving DecidableEq

/-- The per-instance client state: the running total usage counters. -/
structure OllamaClientState where
  totalPrompt : ℕ
  totalCompletion : ℕ
deriving DecidableEq

/-- The `total_usage()` accessor of the client. -/
def total_usage (st : OllamaClientState) : RequestUsage :=
  ⟨st.totalPrompt, st.totalCompletion⟩

/-- Modelled from the spec: `OllamaChatCompletionClient.create` is not part
of `src` (only its test suite is). Per the spec the client "raises a value
error when tool-choice is forced to \x22required\x22 with an empty tool set"
and "maintains running total ... usage counters across calls on one
instance". The model server is a parameter, consulted only after argument
validation succeeds; a successful call adds the reply's usage to the
running totals. -/
def create (server : CreateArgs → CreateResult) (st : OllamaClientState)
    (args : CreateArgs) : Except PyExn (CreateResult × OllamaClientState) :=
  if args.tool_choice = .required ∧ args.tools = [] then
    .error (.valueErr "tool_choice \x27required\x27 specified but no tools provided")
  else
    let r := server args
    .ok (r, ⟨st.totalPrompt + r.usage.prompt_tokens,
             st.totalCompletion + r.usage.completion_tokens⟩)

/-- The client state after a `create` call: updated on success, unchanged
when the call raises. -/
def createStep (server : CreateArgs → CreateResult) (st : OllamaClientState)
    (args : CreateArgs) : OllamaClientState :=
  match create server st args with
  | .ok (_, st') => st'
  | .error _ => st

/-- The client state after a sequence of `create` calls. -/
def runCreates (server : CreateArgs → CreateResult) (st : OllamaClientState)
    (argsList : List CreateArgs) : OllamaClientState :=
  argsList.foldl (createStep server) st

/-! Digit-list lemmas: the fueled digit function agrees with `Nat.digits`. -/

theorem digitsRec_eq_digits : ∀ fuel n : ℕ, n ≤ fuel → digitsRec fuel n = Nat.digits 10 n := by
  intro fuel
  induction fuel with
  | zero => intro n hn; interval_cases n; simp [digitsRec]
  | succ f ih =>
    intro n hn
    match n with
    | 0 => simp [digitsRec]
    | m + 1 =>
      rw [digitsRec, Nat.digits_def' (by norm_num : 1 < 10) (Nat.succ_pos m)]
      congr 1
      exact ih _ (by omega)

theorem decDigits_eq (n : ℕ) : decDigits n = Nat.digits 10 n :=
  digitsRec_eq_digits n n le_rfl

theorem decDigits_lt (n : ℕ) : ∀ d ∈ decDigits n, d < 10 := by
  rw [decDigits_eq]
  intro d hd
  exact Nat.digits_lt_base (by norm_num) hd

theorem ofDigits_decDigits (n : ℕ) : Nat.ofDigits 10 (decDigits n) = n := by
  rw [decDigits_eq]; exact Nat.ofDigits_digits 10 n

theorem decDigits_ne_nil {n : ℕ} (hn : n ≠ 0) : decDigits n ≠ [] := by
  rw [decDigits_eq]; exact Nat.digits_ne_nil_iff_ne_zero.mpr hn

theorem decDigits_len_le {n k : ℕ} (hn : n < 10 ^ k) : (decDigits n).length ≤ k := by
  rw [decDigits_eq]
  by_contra h
  push_neg at h
  have hn0 : n ≠ 0 := by
    intro h0
    rw [h0] at h
    simp at h
  have h1 : (10 : ℕ) ^ (Nat.digits 10 n).length ≤ 10 * n :=
    Nat.base_pow_length_digits_le 10 n (by norm_num) hn0
  have h2 : (10 : ℕ) ^ (k + 1) ≤ 10 ^ (Nat.digits 10 n).length :=
    Nat.pow_le_pow_right (by norm_num) (by omega)
  have h3 : (10 : ℕ) ^ (k + 1) = 10 * 10 ^ k := by ring
  omega

/-! Character lemmas for decimal digits. -/

theorem digitChar_toNat : ∀ d : ℕ, d < 10 → (digitChar d).toNat = 48 + d := by decide

theorem isDigitCh_digitChar : ∀ d : ℕ, d < 10 → isDigitCh (digitChar d) = true := by decide

theorem digitVal_digitChar : ∀ d : ℕ, d < 10 → digitVal (digitChar d) = d := by decide

theorem isDigitCh_ne_dot {c : Char} (h : isDigitCh c = true) : (c != '.') = true := by
  have hne : c ≠ '.' := by
    intro he
    subst he
    simp [isDigitCh] at h
  simpa using hne

theorem isDigitCh_ne_minus {c : Char} (h : isDigitCh c = true) : ¬ c = '-' := by
  intro he
  subst he
  simp [isDigitCh] at h


/-! Round-trip of the natural-number renderer through the digit parser. -/

theorem foldr_digitChars (ds : List ℕ) (hds : ∀ d ∈ ds, d < 10) :
    ds.foldr (fun d acc => 10 * acc + digitVal (digitChar d)) 0 = Nat.ofDigits 10 ds := by
  induction ds with
  | nil => simp [Nat.ofDigits]
  | cons d tl ih =>
    rw [List.foldr_cons, Nat.ofDigits_cons]
    rw [ih (fun x hx => hds x (List.mem_cons_of_mem d hx))]
    rw [digitVal_digitChar d (hds d (List.mem_cons_self d tl))]
    ring

theorem foldl_digitChars (ds : List ℕ) (hds : ∀ d ∈ ds, d < 10) :
    (ds.reverse.map digitChar).foldl (fun acc c => 10 * acc + digitVal c) 0 =
      Nat.ofDigits 10 ds := by
  rw [List.map_reverse, List.foldl_reverse, List.foldr_map]
  exact foldr_digitChars ds hds

theorem toList_mk (l : List Char) : (String.mk l).toList = l := rfl

theorem natToString_chars (n : ℕ) :
    (natToString n).toList ≠ [] ∧ ∀ c ∈ (natToString n).toList, isDigitCh c = true := by
  by_cases h : n = 0
  · subst h
    constructor
    · simp [natToString]
    · intro c hc
      simp [natToString] at hc
      subst hc
      decide
  · rw [natToString, if_neg h, toList_mk]
    constructor
    · simp [decDigits_ne_nil h]
    · intro c hc
      rw [List.mem_map] at hc
      obtain ⟨d, hd, rfl⟩ := hc
      exact isDigitCh_digitChar d (decDigits_lt n d (List.mem_reverse.mp hd))

theorem parseNatList_natToString (n : ℕ) :
    parseNatList (natToString n).toList = some n := by
  obtain ⟨hne, hdig⟩ := natToString_chars n
  rw [parseNatList, if_pos]
  · congr 1
    by_cases h : n = 0
    · subst h; rfl
    · rw [natToString, if_neg h, toList_mk]
      rw [foldl_digitChars (decDigits n) (decDigits_lt n)]
      exact ofDigits_decDigits n
  · rw [Bool.and_eq_true]
    constructor
    · cases hl : (natToString n).toList with
      | nil => exact absurd hl hne
      | cons c cs => rfl
    · rw [List.all_eq_true]
      exact hdig

/-! Interaction of digit strings with the dot-splitting of the parser. -/

theorem takeWhile_all_digits (l : List Char) (hl : ∀ c ∈ l, isDigitCh c = true) :
    l.takeWhile (fun c => c != '.') = l ∧ l.dropWhile (fun c => c != '.') = [] := by
  induction l with
  | nil => simp
  | cons c cs ih =>
    have hc : (c != '.') = true := isDigitCh_ne_dot (hl c (List.mem_cons_self c cs))
    have := ih (fun x hx => hl x (List.mem_cons_of_mem c hx))
    rw [List.takeWhile_cons, List.dropWhile_cons, if_pos hc, if_pos hc]
    exact ⟨by rw [this.1], this.2⟩

theorem takeWhile_digits_dot (l r : List Char) (hl : ∀ c ∈ l, isDigitCh c = true) :
    (l ++ '.' :: r).takeWhile (fun c => c != '.') = l ∧
      (l ++ '.' :: r).dropWhile (fun c => c != '.') = '.' :: r := by
  induction l with
  | nil => simp
  | cons c cs ih =>
    have hc : (c != '.') = true := isDigitCh_ne_dot (hl c (List.mem_cons_self c cs))
    have := ih (fun x hx => hl x (List.mem_cons_of_mem c hx))
    rw [List.cons_append, List.takeWhile_cons, List.dropWhile_cons, if_pos hc, if_pos hc]
    exact ⟨by rw [this.1], this.2⟩

theorem parseRatCore_digits (l : List Char) (hl : ∀ c ∈ l, isDigitCh c = true)
    (n : ℕ) (hn : parseNatList l = some n) : parseRatCore l = some (n : ℚ) := by
  obtain ⟨ht, hd⟩ := takeWhile_all_digits l hl
  rw [parseRatCore]
  rw [hd, ht, hn]
  rfl

/-! Round-trip of the rendered strings through `parseRat`. -/

theorem parseRat_cons (s : String) (c : Char) (cs : List Char) (h : s.toList = c :: cs) :
    parseRat s =
      if c = '-' then (parseRatCore cs).map (fun q => -q) else parseRatCore (c :: cs) := by
  rw [parseRat.eq_def, h]

theorem parseNatList_render (ds : List ℕ) (hlt : ∀ d ∈ ds, d < 10) (hne : ds ≠ []) :
    parseNatList (ds.reverse.map digitChar) = some (Nat.ofDigits 10 ds) ∧
      ∀ c ∈ ds.reverse.map digitChar, isDigitCh c = true := by
  have hdig : ∀ c ∈ ds.reverse.map digitChar, isDigitCh c = true := by
    intro c hc
    rw [List.mem_map] at hc
    obtain ⟨d, hd, rfl⟩ := hc
    exact isDigitCh_digitChar d (hlt d (List.mem_reverse.mp hd))
  refine ⟨?_, hdig⟩
  rw [parseNatList, if_pos]
  · rw [foldl_digitChars ds hlt]
  · rw [Bool.and_eq_true]
    refine ⟨?_, List.all_eq_true.mpr hdig⟩
    cases hr : ds.reverse.map digitChar with
    | nil =>
      rw [List.map_eq_nil_iff, List.reverse_eq_nil_iff] at hr
      exact absurd hr hne
    | cons c cs => rfl

theorem natToString_toList (n : ℕ) (hn : n ≠ 0) :
    (natToString n).toList = (decDigits n).reverse.map digitChar := by
  rw [natToString, if_neg hn]
  rfl

theorem parseRatCore_natToString (n : ℕ) : parseRatCore (natToString n).toList = some (n : ℚ) :=
  parseRatCore_digits _ (natToString_chars n).2 n (parseNatList_natToString n)

theorem natToString_head (n : ℕ) :
    ∃ c cs, (natToString n).toList = c :: cs ∧ isDigitCh c = true := by
  obtain ⟨hne, hdig⟩ := natToString_chars n
  cases hl : (natToString n).toList with
  | nil => exact absurd hl hne
  | cons c cs =>
    exact ⟨c, cs, rfl, hdig c (by rw [hl]; exact List.mem_cons_self c cs)⟩

theorem parseRat_natToString (n : ℕ) : parseRat (natToString n) = some (n : ℚ) := by
  obtain ⟨c, cs, hl, hc⟩ := natToString_head n
  rw [parseRat_cons _ c cs hl, if_neg (isDigitCh_ne_minus hc), ← hl]
  exact parseRatCore_natToString n

theorem parseRat_intToString (k : ℤ) : parseRat (intToString k) = some (k : ℚ) := by
  by_cases hk : k < 0
  · rw [intToString, if_pos hk]
    have hdata : ("-" ++ natToString k.natAbs).toList =
        Char.ofNat 45 :: (natToString k.natAbs).toList := by
      show ("-" ++ natToString k.natAbs).data = _
      rw [String.data_append]
      rfl
    rw [parseRat_cons _ _ _ hdata, if_pos (by decide), parseRatCore_natToString,
      Option.map_some']
    congr 1
    rw [Int.cast_natAbs, abs_of_neg hk]
    push_cast
    ring
  · rw [intToString, if_neg hk]
    rw [parseRat_natToString]
    congr 1
    exact_mod_cast Int.toNat_of_nonneg (not_lt.mp hk)

/-! The fractional digit block of a rounded float. -/

theorem ofDigits_zeros (l : List ℕ) (hl : ∀ d ∈ l, d = 0) : Nat.ofDigits 10 l = 0 := by
  induction l with
  | nil => rfl
  | cons d tl ih =>
    rw [Nat.ofDigits_cons, hl d (List.mem_cons_self d tl),
      ih (fun x hx => hl x (List.mem_cons_of_mem d hx))]

theorem fracDigitsLE_lt (fp : ℕ) : ∀ d ∈ fracDigitsLE fp, d < 10 := by
  intro d hd
  rw [fracDigitsLE, List.mem_append] at hd
  rcases hd with hd | hd
  · exact decDigits_lt fp d hd
  · rw [List.eq_of_mem_replicate hd]; norm_num

theorem fracDigitsLE_length (fp : ℕ) (h : fp < 10 ^ 10) : (fracDigitsLE fp).length = 10 := by
  have := decDigits_len_le h
  rw [fracDigitsLE, List.length_append, List.length_replicate]
  omega

theorem ofDigits_fracDigitsLE (fp : ℕ) : Nat.ofDigits 10 (fracDigitsLE fp) = fp := by
  rw [fracDigitsLE, Nat.ofDigits_append,
    ofDigits_zeros _ (fun d hd => List.eq_of_mem_replicate hd), ofDigits_decDigits]
  ring

theorem strippedFrac_decomp (fp : ℕ) :
    ∃ t, fracDigitsLE fp = t ++ strippedFrac fp ∧ ∀ d ∈ t, d = 0 := by
  refine ⟨(fracDigitsLE fp).takeWhile (fun d => d == 0), ?_, ?_⟩
  · rw [strippedFrac, List.takeWhile_append_dropWhile]
  · intro d hd
    have hbeq := List.mem_takeWhile_imp hd
    simp only [beq_iff_eq] at hbeq
    exact hbeq

theorem strippedFrac_lt (fp : ℕ) : ∀ d ∈ strippedFrac fp, d < 10 := by
  intro d hd
  exact fracDigitsLE_lt fp d ((List.dropWhile_sublist _).mem hd)

theorem strippedFrac_value (fp : ℕ) (h : fp < 10 ^ 10) :
    (strippedFrac fp).length ≤ 10 ∧
      fp = 10 ^ (10 - (strippedFrac fp).length) * Nat.ofDigits 10 (strippedFrac fp) := by
  obtain ⟨t, ht, hz⟩ := strippedFrac_decomp fp
  have hlen : t.length + (strippedFrac fp).length = 10 := by
    have := fracDigitsLE_length fp h
    rw [ht, List.length_append] at this
    omega
  constructor
  · omega
  · have hv := ofDigits_fracDigitsLE fp
    rw [ht, Nat.ofDigits_append, ofDigits_zeros t hz] at hv
    have hT : t.length = 10 - (strippedFrac fp).length := by omega
    rw [hT] at hv
    linarith

theorem strippedFrac_nil {fp : ℕ} (h : strippedFrac fp = []) : fp = 0 := by
  obtain ⟨t, ht, hz⟩ := strippedFrac_decomp fp
  rw [h, List.append_nil] at ht
  have hv := ofDigits_fracDigitsLE fp
  rw [ht, ofDigits_zeros t hz] at hv
  omega

theorem parseRatCore_floatChars (m : ℕ) :
    parseRatCore ((natToString (m / 10 ^ 10)).toList ++ '.' ::
      (if (strippedFrac (m % 10 ^ 10)).isEmpty then ['0']
       else (strippedFrac (m % 10 ^ 10)).reverse.map digitChar)) = some ((m : ℚ) / 10 ^ 10) := by
  have hfp : m % 10 ^ 10 < 10 ^ 10 := Nat.mod_lt m (by norm_num)
  have hm : 10 ^ 10 * (m / 10 ^ 10) + m % 10 ^ 10 = m := Nat.div_add_mod m (10 ^ 10)
  obtain ⟨hipne, hipdig⟩ := natToString_chars (m / 10 ^ 10)
  obtain ⟨hT, hD⟩ := takeWhile_digits_dot (natToString (m / 10 ^ 10)).toList
    (if (strippedFrac (m % 10 ^ 10)).isEmpty then ['0']
     else (strippedFrac (m % 10 ^ 10)).reverse.map digitChar) hipdig
  rw [parseRatCore.eq_def, hD, hT, parseNatList_natToString]
  by_cases hfr : (strippedFrac (m % 10 ^ 10)).isEmpty = true
  · rw [if_pos hfr]
    have hz : m % 10 ^ 10 = 0 := strippedFrac_nil (List.isEmpty_iff.mp hfr)
    have hval : parseNatList ['0'] = some 0 := by decide
    simp only [hval, List.length_cons, List.length_nil, Nat.cast_zero, zero_div, add_zero,
      Option.some.injEq]
    have hmc : (m : ℚ) = (10 : ℚ) ^ 10 * ((m / 10 ^ 10 : ℕ) : ℚ) := by
      rw [hz, Nat.add_zero] at hm
      exact_mod_cast congrArg (fun x : ℕ => (x : ℚ)) hm.symm
    rw [hmc]
    field_simp
  · rw [if_neg hfr]
    have hfrne : strippedFrac (m % 10 ^ 10) ≠ [] := by
      intro h
      rw [h] at hfr
      exact hfr rfl
    obtain ⟨hfval, _⟩ :=
      parseNatList_render (strippedFrac (m % 10 ^ 10)) (strippedFrac_lt _) hfrne
    simp only [hfval, Option.some.injEq, List.length_map, List.length_reverse]
    obtain ⟨hL, hfpval⟩ := strippedFrac_value (m % 10 ^ 10) hfp
    have key : (10 : ℚ) ^ (strippedFrac (m % 10 ^ 10)).length *
        (10 : ℚ) ^ (10 - (strippedFrac (m % 10 ^ 10)).length) = 10 ^ 10 := by
      rw [← pow_add]
      congr 1
      omega
    have hmc : (m : ℚ) = (10 : ℚ) ^ 10 * ((m / 10 ^ 10 : ℕ) : ℚ) +
        (10 : ℚ) ^ (10 - (strippedFrac (m % 10 ^ 10)).length) *
          ((Nat.ofDigits 10 (strippedFrac (m % 10 ^ 10)) : ℕ) : ℚ) := by
      rw [hfpval] at hm
      exact_mod_cast congrArg (fun x : ℕ => (x : ℚ)) hm.symm
    rw [hmc]
    field_simp
    linear_combination (-((Nat.ofDigits 10 (strippedFrac (m % 10 ^ 10)) : ℕ) : ℚ)) * key

theorem floatLitString_data (n : ℤ) :
    (floatLitString n).toList =
      (if n < 0 then ['-'] else []) ++
        ((natToString (n.natAbs / 10 ^ 10)).toList ++ '.' ::
          (if (strippedFrac (n.natAbs % 10 ^ 10)).isEmpty then ['0']
           else (strippedFrac (n.natAbs % 10 ^ 10)).reverse.map digitChar)) := by
  show ((if n < 0 then "-" else "") ++ natToString (n.natAbs / 10 ^ 10) ++ "." ++
      (if (strippedFrac (n.natAbs % 10 ^ 10)).isEmpty then "0"
       else String.mk ((strippedFrac (n.natAbs % 10 ^ 10)).reverse.map digitChar))).data = _
  rw [String.data_append, String.data_append, String.data_append, List.append_assoc,
    List.append_assoc]
  congr 1
  · split_ifs <;> rfl
  · congr 1
    split_ifs <;> rfl

theorem parseRat_floatLitString (n : ℤ) :
    parseRat (floatLitString n) = some ((n : ℚ) / 10 ^ 10) := by
  have hdata := floatLitString_data n
  by_cases hn : n < 0
  · rw [if_pos hn, List.singleton_append] at hdata
    rw [parseRat_cons _ _ _ hdata, if_pos rfl, parseRatCore_floatChars n.natAbs,
      Option.map_some']
    congr 1
    rw [Int.cast_natAbs, abs_of_neg hn]
    push_cast
    ring
  · rw [if_neg hn, List.nil_append] at hdata
    obtain ⟨c, cs, hl, hc⟩ := natToString_head (n.natAbs / 10 ^ 10)
    rw [hl, List.cons_append] at hdata
    rw [parseRat_cons _ _ _ hdata, if_neg (isDigitCh_ne_minus hc), ← List.cons_append, ← hl,
      parseRatCore_floatChars n.natAbs]
    congr 2
    rw [Int.cast_natAbs, abs_of_nonneg (not_lt.mp hn)]

/-! Rounding error bounds. -/

theorem pyRoundInt_abs (q : ℚ) : |(pyRoundInt q : ℚ) - q| ≤ 1 / 2 := by
  have h1 : (⌊q⌋ : ℚ) ≤ q := Int.floor_le q
  have h2 : q < ⌊q⌋ + 1 := Int.lt_floor_add_one q
  rw [pyRoundInt]
  split_ifs with hlt hgt heven
  · rw [abs_le]; constructor <;> linarith
  · rw [abs_le]; push_cast; constructor <;> linarith
  · rw [abs_le]
    have h3 := le_of_not_lt hlt
    have h4 := le_of_not_lt hgt
    constructor <;> linarith
  · rw [abs_le]
    have h3 := le_of_not_lt hlt
    have h4 := le_of_not_lt hgt
    push_cast
    constructor <;> linarith

theorem pyRoundInt_intCast (k : ℤ) : pyRoundInt (k : ℚ) = k := by
  rw [pyRoundInt, Int.floor_intCast, if_pos]
  norm_num

theorem pyRound10_den_one {q : ℚ} (h : q.den = 1) : pyRound10 q = q := by
  have hq : ((q.num : ℚ)) = q := (Rat.den_eq_one_iff q).mp h
  have h1 : q * 10 ^ 10 = ((q.num * 10 ^ 10 : ℤ) : ℚ) := by
    push_cast
    rw [hq]
    norm_num
  rw [pyRound10, h1, pyRoundInt_intCast]
  push_cast
  field_simp
  linear_combination (10 : ℚ) ^ 10 * hq

theorem pyRound10_abs (q : ℚ) : |pyRound10 q - q| ≤ 1 / (2 * 10 ^ 10) := by
  have h := pyRoundInt_abs (q * 10 ^ 10)
  have heq : pyRound10 q - q =
      ((pyRoundInt (q * 10 ^ 10) : ℚ) - q * 10 ^ 10) / 10 ^ 10 := by
    rw [pyRound10]; ring
  rw [heq, abs_div, abs_of_pos (by norm_num : (0 : ℚ) < 10 ^ 10)]
  rw [div_le_div_iff₀ (by norm_num) (by norm_num)]
  norm_num
  linarith

/-! The formatted result parses back to the rounded value. -/

theorem parseRat_formatResult (v : Value) (hv : isNumeric v = true) :
    parseRat (formatResult v) = some (pyRound10 (ratOf v)) := by
  cases v with
  | intV n =>
    rw [formatResult, ratOf, parseRat_intToString,
      pyRound10_den_one (Rat.den_intCast n)]
  | floatV q =>
    rw [formatResult, ratOf]
    by_cases hden : q.den = 1
    · rw [if_pos hden, parseRat_intToString, (Rat.den_eq_one_iff q).mp hden,
        pyRound10_den_one hden]
    · rw [if_neg hden, parseRat_floatLitString]
      rfl
  | strV s => exact absurd hv (by simp [isNumeric])
  | noneV => exact absurd hv (by simp [isNumeric])

/-! Arithmetic of the promoted Python operations. -/

theorem ratOf_pyAdd (a b : Value) : isNumeric a = true → isNumeric b = true →
    ratOf (pyAdd a b) = ratOf a + ratOf b ∧ isNumeric (pyAdd a b) = true := by
  cases a <;> cases b <;> intro ha hb <;> simp [pyAdd, ratOf, isNumeric] at *

theorem ratOf_pySub (a b : Value) : isNumeric a = true → isNumeric b = true →
    ratOf (pySub a b) = ratOf a - ratOf b ∧ isNumeric (pySub a b) = true := by
  cases a <;> cases b <;> intro ha hb <;> simp [pySub, ratOf, isNumeric] at *

theorem ratOf_pyMul (a b : Value) : isNumeric a = true → isNumeric b = true →
    ratOf (pyMul a b) = ratOf a * ratOf b ∧ isNumeric (pyMul a b) = true := by
  cases a <;> cases b <;> intro ha hb <;> simp [pyMul, ratOf, isNumeric] at *

theorem ratOf_pyDiv (a b : Value) :
    ratOf (pyDiv a b) = ratOf a / ratOf b ∧ isNumeric (pyDiv a b) = true :=
  ⟨rfl, rfl⟩

/-! Evaluation of the calculator on each class of inputs. -/

theorem calculatorBody_success (a b : Value) (op : String) (ha : isNumeric a = true)
    (hb : isNumeric b = true) (hop : op = "+" ∨ op = "-" ∨ op = "*" ∨ op = "/")
    (hz : op = "/" → ratOf b ≠ 0) :
    calculatorBody a b (.strV op) = .ok (formatResult (resultVal a b op)) := by
  rcases hop with h | h | h | h <;> subst h
  · simp [calculatorBody, resultVal, ha, hb]
  · simp [calculatorBody, resultVal, ha, hb]
  · simp [calculatorBody, resultVal, ha, hb]
  · simp [calculatorBody, resultVal, ha, hb, hz rfl]

theorem calculator_success (a b : Value) (op : String) (ha : isNumeric a = true)
    (hb : isNumeric b = true) (hop : op = "+" ∨ op = "-" ∨ op = "*" ∨ op = "/")
    (hz : op = "/" → ratOf b ≠ 0) :
    calculator a b (.strV op) = formatResult (resultVal a b op) := by
  rw [calculator.eq_def, calculatorBody_success a b op ha hb hop hz]

theorem calculator_nonNumA (a b operator : Value) (ha : isNumeric a = false) :
    calculator a b operator = msgInvalidA := by
  simp [calculator, calculatorBody, ha]

theorem calculator_nonNumB (a b operator : Value) (ha : isNumeric a = true)
    (hb : isNumeric b = false) : calculator a b operator = msgInvalidB := by
  simp [calculator, calculatorBody, ha, hb]

theorem calculator_nonStrOp (a b operator : Value) (ha : isNumeric a = true)
    (hb : isNumeric b = true) (hop : ∀ s, operator ≠ Value.strV s) :
    calculator a b operator = msgInvalidOpType := by
  cases operator with
  | strV s => exact absurd rfl (hop s)
  | intV k => simp [calculator, calculatorBody, ha, hb]
  | floatV q => simp [calculator, calculatorBody, ha, hb]
  | noneV => simp [calculator, calculatorBody, ha, hb]

theorem calculator_badOp (a b : Value) (s : String) (ha : isNumeric a = true)
    (hb : isNumeric b = true) (h1 : s ≠ "+") (h2 : s ≠ "-") (h3 : s ≠ "*") (h4 : s ≠ "/") :
    calculator a b (.strV s) = invalidOperatorMsg s := by
  simp [calculator, calculatorBody, ha, hb, h1, h2, h3, h4]

theorem calculator_divZero (a b : Value) (ha : isNumeric a = true)
    (hb : isNumeric b = true) (hz : ratOf b = 0) :
    calculator a b (.strV "/") = msgDivZero := by
  simp [calculator, calculatorBody, ha, hb, hz]

/-! The error-marker test on each kind of output. -/

theorem listIsPre_append (p l r : List Char) (h : listIsPre p l = true) :
    listIsPre p (l ++ r) = true := by
  induction p generalizing l with
  | nil => rfl
  | cons c cs ih =>
    cases l with
    | nil => exact absurd h (by simp [listIsPre])
    | cons d ds =>
      rw [listIsPre] at h
      rw [Bool.and_eq_true] at h
      rw [List.cons_append, listIsPre, Bool.and_eq_true]
      exact ⟨h.1, ih ds h.2⟩

theorem isDigitCh_ne_errHead {c : Char} (h : isDigitCh c = true) : ('오' == c) = false := by
  rw [beq_eq_false_iff_ne]
  intro he
  rw [← he] at h
  exact absurd h (by decide)

theorem hasErrPre_natToString (n : ℕ) : hasErrPre (natToString n) = false := by
  obtain ⟨c, cs, hl, hc⟩ := natToString_head n
  rw [hasErrPre, hl]
  show (('오' == c) && _) = false
  rw [isDigitCh_ne_errHead hc, Bool.false_and]

theorem hasErrPre_intToString (k : ℤ) : hasErrPre (intToString k) = false := by
  rw [intToString]
  split_ifs with hk
  · rw [hasErrPre]
    show listIsPre _ (("-" ++ natToString k.natAbs).data) = false
    rw [String.data_append]
    show (('오' == '-') && _) = false
    rw [Bool.and_eq_false_iff]
    left
    decide
  · exact hasErrPre_natToString k.toNat

theorem hasErrPre_floatLitString (n : ℤ) : hasErrPre (floatLitString n) = false := by
  have hdata := floatLitString_data n
  rw [hasErrPre, hdata]
  by_cases hn : n < 0
  · rw [if_pos hn]
    show (('오' == '-') && _) = false
    rw [Bool.and_eq_false_iff]
    left
    decide
  · rw [if_neg hn, List.nil_append]
    obtain ⟨c, cs, hl, hc⟩ := natToString_head (n.natAbs / 10 ^ 10)
    rw [hl, List.cons_append]
    show (('오' == c) && _) = false
    rw [isDigitCh_ne_errHead hc, Bool.false_and]

theorem hasErrPre_formatResult (v : Value) (hv : isNumeric v = true) :
    hasErrPre (formatResult v) = false := by
  cases v with
  | intV n => exact hasErrPre_intToString n
  | floatV q =>
    rw [formatResult]
    split_ifs with hden
    · exact hasErrPre_intToString q.num
    · exact hasErrPre_floatLitString _
  | strV s => exact absurd hv (by simp [isNumeric])
  | noneV => exact absurd hv (by simp [isNumeric])

theorem hasErrPre_invalidOp (op : String) : hasErrPre (invalidOperatorMsg op) = true := by
  rw [hasErrPre, invalidOperatorMsg]
  show listIsPre _ ((("오류: 잘못된 연산자입니다. +, -, *, / 중 하나를 사용하세요. 입력값: \x27" ++ op) ++ "\x27").data) = true
  rw [String.data_append, String.data_append]
  exact listIsPre_append _ _ _ (listIsPre_append _ _ _ (by decide))

theorem ratOf_resultVal (a b : Value) (op : String) (ha : isNumeric a = true)
    (hb : isNumeric b = true) (hop : op = "+" ∨ op = "-" ∨ op = "*" ∨ op = "/") :
    ratOf (resultVal a b op) = evalOp op (ratOf a) (ratOf b) ∧
      isNumeric (resultVal a b op) = true := by
  rcases hop with h | h | h | h <;> subst h
  · simpa [resultVal, evalOp] using ratOf_pyAdd a b ha hb
  · simpa [resultVal, evalOp] using ratOf_pySub a b ha hb
  · simpa [resultVal, evalOp] using ratOf_pyMul a b ha hb
  · simpa [resultVal, evalOp] using ratOf_pyDiv a b

/-- C1: for every numeric `a` and `b` and every operator in `{+, -, *, /}`
(with `b ≠ 0` when the operator is `/`), `calculator` returns a string that
parses back to the mathematically correct value of the operation within
rounding to 10 decimal places (half an ulp at the 10th decimal); in
particular `calculator(6, 7, "*")` returns the string `"42"`. -/
theorem C1_calculator_correct :
    (∀ (a b : Value) (op : String), isNumeric a = true → isNumeric b = true →
      (op = "+" ∨ op = "-" ∨ op = "*" ∨ op = "/") → (op = "/" → ratOf b ≠ 0) →
      ∃ q : ℚ, parseRat (calculator a b (.strV op)) = some q ∧
        |q - evalOp op (ratOf a) (ratOf b)| ≤ 1 / (2 * 10 ^ 10)) ∧
    calculator (.intV 6) (.intV 7) (.strV "*") = "42" := by
  constructor
  · intro a b op ha hb hop hz
    obtain ⟨hrv, hnum⟩ := ratOf_resultVal a b op ha hb hop
    refine ⟨pyRound10 (ratOf (resultVal a b op)), ?_, ?_⟩
    · rw [calculator_success a b op ha hb hop hz, parseRat_formatResult _ hnum]
    · rw [← hrv]
      exact pyRound10_abs _
  · rfl

/-- Witness for C1 at `a = 6`, `b = 7`, `op = "*"`. -/
theorem C1_witness :
    ∃ q : ℚ, parseRat (calculator (.intV 6) (.intV 7) (.strV "*")) = some q ∧
      |q - evalOp "*" (ratOf (.intV 6)) (ratOf (.intV 7))| ≤ 1 / (2 * 10 ^ 10) :=
  C1_calculator_correct.1 (.intV 6) (.intV 7) "*" rfl rfl
    (Or.inr (Or.inr (Or.inl rfl))) (fun h => absurd h (by decide))

theorem calculatorBody_ok (a b operator : Value) :
    ∃ s, calculatorBody a b operator = .ok s := by
  rw [calculatorBody.eq_def]
  split_ifs <;> (try exact ⟨_, rfl⟩) <;> split <;> (try exact ⟨_, rfl⟩) <;>
    split_ifs <;> exact ⟨_, rfl⟩

/-- C2: `calculator` never raises: on every input the `try:` body finishes
with a returned string (no exception escapes to the handlers, and the
handler chain itself maps every modelled exception to a string), and the
function returns exactly that string. -/
theorem C2_never_raises :
    ∀ a b operator : Value, ∃ s : String,
      calculatorBody a b operator = .ok s ∧ calculator a b operator = s := by
  intro a b operator
  obtain ⟨s, hs⟩ := calculatorBody_ok a b operator
  refine ⟨s, hs, ?_⟩
  rw [calculator.eq_def, hs]

/-- C3: for every numeric `a` and every numeric `b` equal to `0`,
`calculator(a, b, "/")` returns the division-by-zero message. -/
theorem C3_div_zero (a b : Value) (ha : isNumeric a = true) (hb : isNumeric b = true)
    (hz : ratOf b = 0) : calculator a b (.strV "/") = msgDivZero :=
  calculator_divZero a b ha hb hz

/-- Witness for C3 at `a = 1`, `b = 0`. -/
theorem C3_witness : calculator (.intV 1) (.intV 0) (.strV "/") = msgDivZero :=
  C3_div_zero (.intV 1) (.intV 0) rfl rfl (by simp [ratOf])

/-- C4: for every numeric `a`, `b` and operator string outside `{+,-,*,/}`,
`calculator` returns the designated invalid-operator message, which contains
the offending operator literally; in particular `calculator(1, 2, "%")`
returns that message with the literal `%` inside. -/
theorem C4_invalid_op :
    (∀ (a b : Value) (s : String), isNumeric a = true → isNumeric b = true →
      s ≠ "+" → s ≠ "-" → s ≠ "*" → s ≠ "/" →
      calculator a b (.strV s) = invalidOperatorMsg s ∧
        ∃ l r : String, invalidOperatorMsg s = l ++ s ++ r) ∧
    calculator (.intV 1) (.intV 2) (.strV "%") = invalidOperatorMsg "%" ∧
    (∃ l r : String, invalidOperatorMsg "%" = l ++ "%" ++ r) := by
  refine ⟨fun a b s ha hb h1 h2 h3 h4 =>
    ⟨calculator_badOp a b s ha hb h1 h2 h3 h4,
     "오류: 잘못된 연산자입니다. +, -, *, / 중 하나를 사용하세요. 입력값: \x27", "\x27", rfl⟩,
    rfl,
    "오류: 잘못된 연산자입니다. +, -, *, / 중 하나를 사용하세요. 입력값: \x27", "\x27", rfl⟩

/-- Witness for C4 at `a = 1`, `b = 2`, `op = "%"`. -/
theorem C4_witness :
    calculator (.intV 1) (.intV 2) (.strV "%") = invalidOperatorMsg "%" ∧
      ∃ l r : String, invalidOperatorMsg "%" = l ++ "%" ++ r :=
  C4_invalid_op.1 (.intV 1) (.intV 2) "%" rfl rfl (by decide) (by decide) (by decide)
    (by decide)

theorem invalidOperatorMsg_take (s : String) :
    (invalidOperatorMsg s).toList.take 5 = "오류: 잘".toList := by
  rw [invalidOperatorMsg]
  show ((("오류: 잘못된 연산자입니다. +, -, *, / 중 하나를 사용하세요. 입력값: \x27" ++ s)
    ++ "\x27").data).take 5 = _
  rw [String.data_append, String.data_append, List.append_assoc,
    List.take_append_of_le_length (by decide)]
  decide

theorem invalidOperatorMsg_ne (s m : String)
    (hm : m.toList.take 5 ≠ "오류: 잘".toList) : invalidOperatorMsg s ≠ m := by
  intro h
  have h5 : (invalidOperatorMsg s).toList.take 5 = m.toList.take 5 :=
    congrArg (fun t : String => t.toList.take 5) h
  rw [invalidOperatorMsg_take] at h5
  exact hm h5.symm

/-- C5: a non-numeric first operand yields the (first) invalid-type message
and a non-numeric second operand the second one, and the messages of the
recoverable conditions (invalid operand types, invalid operator — whether a
non-string operator or an unsupported operator string — and division by
zero) are pairwise distinct. -/
theorem C5_distinct_messages :
    (∀ a b operator : Value, isNumeric a = false →
      calculator a b operator = msgInvalidA) ∧
    (∀ a b operator : Value, isNumeric a = true → isNumeric b = false →
      calculator a b operator = msgInvalidB) ∧
    (msgInvalidA ≠ msgInvalidB ∧ msgInvalidA ≠ msgInvalidOpType ∧
      msgInvalidA ≠ msgDivZero ∧ msgInvalidB ≠ msgInvalidOpType ∧
      msgInvalidB ≠ msgDivZero ∧ msgInvalidOpType ≠ msgDivZero) ∧
    (∀ s : String, invalidOperatorMsg s ≠ msgInvalidA ∧ invalidOperatorMsg s ≠ msgInvalidB ∧
      invalidOperatorMsg s ≠ msgInvalidOpType ∧ invalidOperatorMsg s ≠ msgDivZero) := by
  refine ⟨calculator_nonNumA, calculator_nonNumB,
    ⟨by decide, by decide, by decide, by decide, by decide, by decide⟩, fun s =>
    ⟨invalidOperatorMsg_ne s _ (by decide), invalidOperatorMsg_ne s _ (by decide),
     invalidOperatorMsg_ne s _ (by decide), invalidOperatorMsg_ne s _ (by decide)⟩⟩

/-- Witness for C5 at concrete non-numeric operands. -/
theorem C5_witness :
    calculator .noneV (.intV 1) (.strV "+") = msgInvalidA ∧
      calculator (.intV 1) .noneV (.strV "+") = msgInvalidB ∧ msgInvalidA ≠ msgInvalidB :=
  ⟨C5_distinct_messages.1 .noneV (.intV 1) (.strV "+") rfl,
   C5_distinct_messages.2.1 (.intV 1) .noneV (.strV "+") rfl rfl,
   C5_distinct_messages.2.2.1.1⟩

theorem dot_not_mem_natToString (n : ℕ) : ¬ '.' ∈ (natToString n).toList := by
  intro hmem
  have := (natToString_chars n).2 '.' hmem
  exact absurd this (by decide)

theorem dot_not_mem_intToString (k : ℤ) : ¬ '.' ∈ (intToString k).toList := by
  rw [intToString]
  split_ifs with hk
  · intro hmem
    have hd : ('.' : Char) ∈ ("-" ++ natToString k.natAbs).data := hmem
    rw [String.data_append, List.mem_append] at hd
    rcases hd with hd | hd
    · exact absurd hd (by decide)
    · exact dot_not_mem_natToString k.natAbs hd
  · exact dot_not_mem_natToString k.toNat

/-- C6: on the success path, an integral arithmetic result is rendered with
no decimal point in the returned string, and a non-integral result is
rendered as the result rounded to 10 decimal places (read back through the
decimal parser). -/
theorem C6_result_formatting (a b : Value) (op : String) (ha : isNumeric a = true)
    (hb : isNumeric b = true) (hop : op = "+" ∨ op = "-" ∨ op = "*" ∨ op = "/")
    (hz : op = "/" → ratOf b ≠ 0) :
    ((ratOf (resultVal a b op)).den = 1 →
      ¬ '.' ∈ (calculator a b (.strV op)).toList) ∧
    ((ratOf (resultVal a b op)).den ≠ 1 →
      parseRat (calculator a b (.strV op)) =
        some (pyRound10 (ratOf (resultVal a b op)))) := by
  have hcalc := calculator_success a b op ha hb hop hz
  have hnum := (ratOf_resultVal a b op ha hb hop).2
  constructor
  · intro hden
    rw [hcalc]
    cases hv : resultVal a b op with
    | intV n => rw [formatResult]; exact dot_not_mem_intToString n
    | floatV q =>
      rw [hv, ratOf] at hden
      rw [formatResult, if_pos hden]
      exact dot_not_mem_intToString q.num
    | strV s => rw [hv] at hnum; exact absurd hnum (by simp [isNumeric])
    | noneV => rw [hv] at hnum; exact absurd hnum (by simp [isNumeric])
  · intro _
    rw [hcalc, parseRat_formatResult _ hnum]

/-- Witness for C6 at `a = 1`, `b = 8`, `op = "/"` (non-integral result)
formulated through the theorem itself. -/
theorem C6_witness :
    ((ratOf (resultVal (.intV 1) (.intV 8) "/")).den = 1 →
      ¬ '.' ∈ (calculator (.intV 1) (.intV 8) (.strV "/")).toList) ∧
    ((ratOf (resultVal (.intV 1) (.intV 8) "/")).den ≠ 1 →
      parseRat (calculator (.intV 1) (.intV 8) (.strV "/")) =
        some (pyRound10 (ratOf (resultVal (.intV 1) (.intV 8) "/")))) :=
  C6_result_formatting (.intV 1) (.intV 8) "/" rfl rfl
    (Or.inr (Or.inr (Or.inr rfl))) (fun _ => by norm_num [ratOf])

/-- C9: the return value of `calculator` starts with the prefix `오류:` if
and only if the input is not a success input (numeric operands, supported
operator string, nonzero divisor for `/`), so a caller can distinguish
success from failure by that marker alone. -/
theorem C9_error_marker_iff :
    ∀ a b operator : Value,
      hasErrPre (calculator a b operator) = true ↔ ¬ successInput a b operator := by
  intro a b operator
  constructor
  · intro herr hsucc
    obtain ⟨ha, hb, op, rfl, hop⟩ := hsucc
    have hops : op = "+" ∨ op = "-" ∨ op = "*" ∨ op = "/" := by
      rcases hop with h | h | h | ⟨h, _⟩
      · exact Or.inl h
      · exact Or.inr (Or.inl h)
      · exact Or.inr (Or.inr (Or.inl h))
      · exact Or.inr (Or.inr (Or.inr h))
    have hz : op = "/" → ratOf b ≠ 0 := by
      intro hdiv
      rcases hop with h | h | h | ⟨_, hnz⟩
      · rw [h] at hdiv; exact absurd hdiv (by decide)
      · rw [h] at hdiv; exact absurd hdiv (by decide)
      · rw [h] at hdiv; exact absurd hdiv (by decide)
      · exact hnz
    rw [calculator_success a b op ha hb hops hz,
      hasErrPre_formatResult _ (ratOf_resultVal a b op ha hb hops).2] at herr
    exact absurd herr (by decide)
  · intro hnsucc
    by_cases ha : isNumeric a = true
    · by_cases hb : isNumeric b = true
      · cases operator with
        | strV op =>
          by_cases h1 : op = "+"
          · exact absurd ⟨ha, hb, op, rfl, Or.inl h1⟩ hnsucc
          by_cases h2 : op = "-"
          · exact absurd ⟨ha, hb, op, rfl, Or.inr (Or.inl h2)⟩ hnsucc
          by_cases h3 : op = "*"
          · exact absurd ⟨ha, hb, op, rfl, Or.inr (Or.inr (Or.inl h3))⟩ hnsucc
          by_cases h4 : op = "/"
          · by_cases hz : ratOf b = 0
            · rw [h4, calculator_divZero a b ha hb hz]
              decide
            · exact absurd ⟨ha, hb, op, rfl, Or.inr (Or.inr (Or.inr ⟨h4, hz⟩))⟩ hnsucc
          · rw [calculator_badOp a b op ha hb h1 h2 h3 h4]
            exact hasErrPre_invalidOp op
        | intV k =>
          rw [calculator_nonStrOp a b _ ha hb (fun s => by simp)]
          decide
        | floatV q =>
          rw [calculator_nonStrOp a b _ ha hb (fun s => by simp)]
          decide
        | noneV =>
          rw [calculator_nonStrOp a b _ ha hb (fun s => by simp)]
          decide
      · rw [calculator_nonNumB a b operator ha (by simpa using hb)]
        decide
    · rw [calculator_nonNumA a b operator (by simpa using ha)]
      decide

/-- C10: the error conditions are checked in a fixed precedence order —
type of `a`, then type of `b`, then type and then validity of the operator,
then division by zero — each earlier condition deciding the message
regardless of the later ones; in particular a non-numeric `a` combined with
an unsupported operator yields the first-operand message. -/
theorem C10_error_precedence :
    (∀ a b operator : Value, isNumeric a = false →
      calculator a b operator = msgInvalidA) ∧
    (∀ a b operator : Value, isNumeric a = true → isNumeric b = false →
      calculator a b operator = msgInvalidB) ∧
    (∀ a b operator : Value, isNumeric a = true → isNumeric b = true →
      (∀ s, operator ≠ Value.strV s) → calculator a b operator = msgInvalidOpType) ∧
    (∀ (a b : Value) (s : String), isNumeric a = true → isNumeric b = true →
      s ≠ "+" → s ≠ "-" → s ≠ "*" → s ≠ "/" →
      calculator a b (.strV s) = invalidOperatorMsg s) ∧
    (∀ a b : Value, isNumeric a = true → isNumeric b = true → ratOf b = 0 →
      calculator a b (.strV "/") = msgDivZero) ∧
    calculator .noneV (.intV 2) (.strV "%") = msgInvalidA :=
  ⟨calculator_nonNumA, calculator_nonNumB, calculator_nonStrOp,
   calculator_badOp, calculator_divZero, rfl⟩

/-- Witness for C10 at concrete inputs exercising every precedence level. -/
theorem C10_witness :
    calculator .noneV (.intV 0) (.strV "%") = msgInvalidA ∧
      calculator (.intV 1) .noneV (.intV 5) = msgInvalidB ∧
      calculator (.intV 1) (.intV 2) .noneV = msgInvalidOpType ∧
      calculator (.intV 1) (.intV 0) (.strV "%") = invalidOperatorMsg "%" ∧
      calculator (.intV 1) (.intV 0) (.strV "/") = msgDivZero :=
  ⟨C10_error_precedence.1 _ _ _ rfl,
   C10_error_precedence.2.1 _ _ _ rfl rfl,
   C10_error_precedence.2.2.1 _ _ _ rfl rfl (fun s => by simp),
   C10_error_precedence.2.2.2.1 _ _ "%" rfl rfl (by decide) (by decide) (by decide)
     (by decide),
   C10_error_precedence.2.2.2.2.1 _ _ rfl rfl (by simp [ratOf])⟩

/-- C7: calling `create` with tool choice `required` and an empty tool list
yields a value error, and the outcome does not depend on the model server
(the server is never consulted). -/
theorem C7_required_needs_tools (server : CreateArgs → CreateResult)
    (st : OllamaClientState) (args : CreateArgs) (hreq : args.tool_choice = .required)
    (hempty : args.tools = []) :
    (∃ msg : String, create server st args = .error (.valueErr msg)) ∧
      ∀ server2 : CreateArgs → CreateResult,
        create server2 st args = create server st args := by
  constructor
  · exact ⟨_, by rw [create, if_pos ⟨hreq, hempty⟩]⟩
  · intro server2
    rw [create, create, if_pos ⟨hreq, hempty⟩, if_pos ⟨hreq, hempty⟩]

/-- Witness for C7 at a concrete client state and argument record. -/
theorem C7_witness :
    (∃ msg : String, create (fun _ => ⟨"", 0, 0⟩) ⟨0, 0⟩ ⟨[], [], .required⟩ =
      .error (.valueErr msg)) ∧
      ∀ server2 : CreateArgs → CreateResult,
        create server2 ⟨0, 0⟩ ⟨[], [], .required⟩ =
          create (fun _ => ⟨"", 0, 0⟩) ⟨0, 0⟩ ⟨[], [], .required⟩ :=
  C7_required_needs_tools (fun _ => ⟨"", 0, 0⟩) ⟨0, 0⟩ ⟨[], [], .required⟩ rfl rfl

theorem createStep_mono (server : CreateArgs → CreateResult) (st : OllamaClientState)
    (args : CreateArgs) :
    st.totalPrompt ≤ (createStep server st args).totalPrompt ∧
      st.totalCompletion ≤ (createStep server st args).totalCompletion := by
  rw [createStep, create]
  split_ifs
  · exact ⟨le_rfl, le_rfl⟩
  · exact ⟨Nat.le_add_right _ _, Nat.le_add_right _ _⟩

theorem runCreates_mono (server : CreateArgs → CreateResult) (st : OllamaClientState)
    (l : List CreateArgs) :
    st.totalPrompt ≤ (runCreates server st l).totalPrompt ∧
      st.totalCompletion ≤ (runCreates server st l).totalCompletion := by
  induction l generalizing st with
  | nil => exact ⟨le_rfl, le_rfl⟩
  | cons args rest ih =>
    have h1 := createStep_mono server st args
    have h2 := ih (createStep server st args)
    exact ⟨le_trans h1.1 h2.1, le_trans h1.2 h2.2⟩

theorem runCreates_append (server : CreateArgs → CreateResult) (st : OllamaClientState)
    (l1 l2 : List CreateArgs) :
    runCreates server st (l1 ++ l2) = runCreates server (runCreates server st l1) l2 := by
  rw [runCreates, runCreates, runCreates, List.foldl_append]

/-- C8: across any sequence of `create` calls on one client instance, the
cumulative usage counters reported by `total_usage` never decrease: after
any later portion of the call sequence both counters are at least their
values after any earlier portion. -/
theorem C8_usage_monotone (server : CreateArgs → CreateResult) (st : OllamaClientState)
    (argsList : List CreateArgs) (i j : ℕ) (hij : i ≤ j) :
    (total_usage (runCreates server st (argsList.take i))).prompt_tokens ≤
        (total_usage (runCreates server st (argsList.take j))).prompt_tokens ∧
      (total_usage (runCreates server st (argsList.take i))).completion_tokens ≤
        (total_usage (runCreates server st (argsList.take j))).completion_tokens := by
  have hj : i + (j - i) = j := by omega
  have htake : argsList.take j = argsList.take i ++ (argsList.drop i).take (j - i) := by
    rw [← List.take_add, hj]
  rw [htake, runCreates_append]
  exact runCreates_mono server _ _

/-- Witness for C8 on a one-call sequence with a concrete server. -/
theorem C8_witness :
    (total_usage (runCreates (fun _ => ⟨"hi", 3, 4⟩) ⟨0, 0⟩
        (([⟨[], [], .auto⟩] : List CreateArgs).take 0))).prompt_tokens ≤
      (total_usage (runCreates (fun _ => ⟨"hi", 3, 4⟩) ⟨0, 0⟩
        (([⟨[], [], .auto⟩] : List CreateArgs).take 1))).prompt_tokens ∧
    (total_usage (runCreates (fun _ => ⟨"hi", 3, 4⟩) ⟨0, 0⟩
        (([⟨[], [], .auto⟩] : List CreateArgs).take 0))).completion_tokens ≤
      (total_usage (runCreates (fun _ => ⟨"hi", 3, 4⟩) ⟨0, 0⟩
        (([⟨[], [], .auto⟩] : List CreateArgs).take 1))).completion_tokens :=
  C8_usage_monotone (fun _ => ⟨"hi", 3, 4⟩) ⟨0, 0⟩ [⟨[], [], .auto⟩] 0 1 (by decide)
